import Mathlib

/- Shallow embedding of the docsearch crate's index decoding pipeline
   (src/index/mod.rs, src/index/v1.rs, src/index/v2.rs).

   Modelling conventions:
   - Rust `String`/`&str` are Lean `String` (or `List Char` where scanning).
   - `Vec<T>` is `List T`; `BTreeMap<K, V>` is a sorted association list kept
     canonical by its insert function; `HashMap<K, V>` is an association list
     in document order (iteration order of a HashMap is not observed by any
     property below).
   - `usize`/`u64` are `Nat` with explicit bounds where overflow matters.
   - A Rust panic (out-of-bounds slice indexing) is modelled as `Option.none`.
   - Foreign error payloads (`serde_json::Error` displays, winnow error
     spans) are dropped: error constructors carry no data. -/

namespace Docsearch

/-- Item kinds appearing in rustdoc indexes, from `ItemType` in
src/index/mod.rs, with the discriminants 0..=25 given by `from_raw`. -/
inductive ItemType where
  | Module
  | ExternCrate
  | Import
  | Struct
  | Enum
  | Function
  | Typedef
  | Static
  | Trait
  | Impl
  | TyMethod
  | Method
  | StructField
  | Variant
  | Macro
  | Primitive
  | AssocType
  | Constant
  | AssocConst
  | Union
  | ForeignType
  | Keyword
  | OpaqueTy
  | ProcAttribute
  | ProcDerive
  | TraitAlias
  deriving DecidableEq, Repr

/-- URL path segment of each item kind, from `ItemType::as_str`. -/
def ItemType.asStr : ItemType → String
  | .Module => "mod"
  | .ExternCrate => "externcrate"
  | .Import => "import"
  | .Struct => "struct"
  | .Union => "union"
  | .Enum => "enum"
  | .Function => "fn"
  | .Typedef => "type"
  | .Static => "static"
  | .Trait => "trait"
  | .Impl => "impl"
  | .TyMethod => "tymethod"
  | .Method => "method"
  | .StructField => "structfield"
  | .Variant => "variant"
  | .Macro => "macro"
  | .Primitive => "primitive"
  | .AssocType => "associatedtype"
  | .Constant => "constant"
  | .AssocConst => "associatedconstant"
  | .ForeignType => "foreigntype"
  | .Keyword => "keyword"
  | .OpaqueTy => "opaque"
  | .ProcAttribute => "attr"
  | .ProcDerive => "derive"
  | .TraitAlias => "traitalias"

/-- Decoding of a raw `u8` type code, from `ItemType::from_raw`; the
catch-all arm returns `none`. -/
def ItemType.fromRaw : Nat → Option ItemType
  | 0 => some .Module
  | 1 => some .ExternCrate
  | 2 => some .Import
  | 3 => some .Struct
  | 4 => some .Enum
  | 5 => some .Function
  | 6 => some .Typedef
  | 7 => some .Static
  | 8 => some .Trait
  | 9 => some .Impl
  | 10 => some .TyMethod
  | 11 => some .Method
  | 12 => some .StructField
  | 13 => some .Variant
  | 14 => some .Macro
  | 15 => some .Primitive
  | 16 => some .AssocType
  | 17 => some .Constant
  | 18 => some .AssocConst
  | 19 => some .Union
  | 20 => some .ForeignType
  | 21 => some .Keyword
  | 22 => some .OpaqueTy
  | 23 => some .ProcAttribute
  | 24 => some .ProcDerive
  | 25 => some .TraitAlias
  | _ => none

/-- Reverse lookup of a type code by its URL segment string.  This is the
spec's reverse direction of the round-trip property; the source has no such
function, so it is defined as the search over the 26 defined codes. -/
def segmentToCode (s : String) : Option Nat :=
  (List.range 26).find? (fun c => (ItemType.fromRaw c).any (fun t => t.asStr = s))

/-- Raw crate index data, from `RawCrateData` in src/index/mod.rs.  The `q`
field is the `BTreeMap<usize, String>` produced by `VecPathVisitor`. -/
structure RawCrateData where
  doc : String
  t : List ItemType
  n : List String
  q : List (Nat × String)
  d : List String
  i : List Nat
  p : List (ItemType × String)
  deriving DecidableEq, Repr

/-- Whole raw index, from `RawIndexData`: a map from crate name to data. -/
structure RawIndexData where
  crates : List (String × RawCrateData)
  deriving DecidableEq, Repr

/-- A transformed index item, from `IndexItem` in src/index/mod.rs. -/
structure IndexItem where
  ty : ItemType
  name : String
  path : String
  desc : String
  parentIdx : Option Nat
  deriving DecidableEq, Repr

/-- Transformed crate data, from `CrateData` in src/index/mod.rs. -/
structure CrateData where
  doc : String
  items : List IndexItem
  paths : List (ItemType × String)
  deriving DecidableEq, Repr

/-- Whole transformed index, from `IndexData` in src/index/mod.rs. -/
structure IndexData where
  crates : List (String × CrateData)
  deriving DecidableEq, Repr

/-- `BTreeMap::remove` on an association list: the value stored at the key
(first occurrence) together with the list with that entry removed. -/
def qRemove : List (Nat × String) → Nat → Option String × List (Nat × String)
  | [], _ => (none, [])
  | (k, v) :: rest, key =>
    if k = key then (some v, rest)
    else
      let r := qRemove rest key
      (r.1, (k, v) :: r.2)

/-- `BTreeMap::get`-style lookup (first occurrence) on an association list. -/
def qLookup : List (Nat × String) → Nat → Option String
  | [], _ => none
  | (k, v) :: rest, key => if k = key then some v else qLookup rest key

/-- Body of the `fold` in `transform` (src/index/mod.rs): walk the zipped
item rows threading the current path and the remaining `q` map, emitting one
`IndexItem` per row. -/
def transformLoop : List ((((Nat × ItemType) × String) × String) × Nat) → String →
    List (Nat × String) → List IndexItem
  | [], _, _ => []
  | ((((pos, t), n), d), i) :: rest, path, q =>
    let r := qRemove q pos
    let path2 := r.1.getD path
    { ty := t, name := n, path := path2, desc := d,
      parentIdx := if 0 < i then some (i - 1) else none } :: transformLoop rest path2 r.2

/-- The per-crate part of `transform`: zip the columns (`enumerate`/`zip`
truncate at the shortest column) and run the fold seeded with the empty
path. -/
def transformCrate (raw : RawCrateData) : CrateData :=
  { doc := raw.doc
    items := transformLoop (((raw.t.enum.zip raw.n).zip raw.d).zip raw.i) "" raw.q
    paths := raw.p }

/-- `transform` from src/index/mod.rs, mapped over all crates. -/
def transform (raw : RawIndexData) : IndexData :=
  { crates := raw.crates.map (fun c => (c.1, transformCrate c.2)) }

/-- Recursion core of `rustReplace`; the fuel bounds the number of steps
(each step consumes at least one character, so the input length is always
enough). -/
def rustReplaceAux (pat rep : List Char) : Nat → List Char → List Char
  | 0, l => l
  | fuel + 1, l =>
    match l with
    | [] => []
    | c :: rest =>
      if pat ≠ [] ∧ pat.isPrefixOf (c :: rest) then
        rep ++ rustReplaceAux pat rep fuel ((c :: rest).drop pat.length)
      else
        c :: rustReplaceAux pat rep fuel rest

/-- Rust `str::replace`: leftmost, non-overlapping replacement of every
occurrence of `pat` by `rep`. -/
def rustReplace (pat rep l : List Char) : List Char :=
  rustReplaceAux pat rep l.length l

/-- `item.path.replace("::", "/")` from `generate_crate_mapping`. -/
def replaceDoubleColon (s : String) : String :=
  String.mk (rustReplace ("::".toList) ("/".toList) s.toList)

/-- The body of the `map` closure in `generate_crate_mapping`
(src/index/mod.rs): the `(full_path, url)` pair for one item.  `paths[idx]`
on an out-of-bounds `idx` panics in Rust; that is modelled as `none`. -/
def itemEntry (paths : List (ItemType × String)) (item : IndexItem) :
    Option (String × String) :=
  match item.parentIdx with
  | some idx =>
    match paths.get? idx with
    | none => none
    | some parent =>
      some (item.path ++ "::" ++ parent.2 ++ "::" ++ item.name,
        replaceDoubleColon item.path ++ "/" ++ parent.1.asStr ++ "." ++ parent.2 ++
          ".html#" ++ item.ty.asStr ++ "." ++ item.name)
  | none =>
    some (item.path ++ "::" ++ item.name,
      replaceDoubleColon item.path ++ "/" ++ item.ty.asStr ++ "." ++ item.name ++ ".html")

/-- Insertion into a `BTreeMap<String, String>` modelled as a sorted
association list; inserting an existing key overwrites its value. -/
def btInsertStr : List (String × String) → String → String → List (String × String)
  | [], k, v => [(k, v)]
  | (k2, v2) :: rest, k, v =>
    if k < k2 then (k, v) :: (k2, v2) :: rest
    else if k = k2 then (k, v) :: rest
    else (k2, v2) :: btInsertStr rest k v

/-- `generate_crate_mapping` from src/index/mod.rs: the `(full_path, url)`
pair of every item, collected into a `BTreeMap`.  `none` models the panic
on an out-of-bounds parent index. -/
def generateCrateMapping (data : CrateData) : Option (List (String × String)) :=
  (data.items.mapM (itemEntry data.paths)).map
    (fun l => l.foldl (fun m kv => btInsertStr m kv.1 kv.2) [])

/-- `generate_mapping` from src/index/mod.rs, over all crates; `none` if any
crate's mapping panics. -/
def generateMapping (data : IndexData) : Option (List (String × List (String × String))) :=
  data.crates.mapM (fun c => (generateCrateMapping c.2).map (fun m => (c.1, m)))

/-- Rust `str::starts_with` on a string prefix. -/
def startsWithL (l pre : List Char) : Bool :=
  pre.isPrefixOf l

/-- Rust `str::ends_with` on a string suffix. -/
def endsWithL (l suf : List Char) : Bool :=
  suf.isSuffixOf l

/-- Rust `str::strip_prefix`. -/
def dropPfx (l pre : List Char) : Option (List Char) :=
  if pre.isPrefixOf l then some (l.drop pre.length) else none

/-- Rust `str::strip_suffix`. -/
def dropSfx (l suf : List Char) : Option (List Char) :=
  if suf.isSuffixOf l then some (l.take (l.length - suf.length)) else none

/-- Rust `str::split_once`: split at the first occurrence of `pat`. -/
def splitOnceL (pat : List Char) : List Char → Option (List Char × List Char)
  | [] => none
  | c :: rest =>
    if pat ≠ [] ∧ pat.isPrefixOf (c :: rest) then some ([], (c :: rest).drop pat.length)
    else (splitOnceL pat rest).map (fun r => (c :: r.1, r.2))

/-- Rust `char::is_whitespace`: the Unicode White_Space code points. -/
def rustIsWhitespace (c : Char) : Bool :=
  let n := c.toNat
  n = 0x09 || n = 0x0A || n = 0x0B || n = 0x0C || n = 0x0D || n = 0x20 ||
    n = 0x85 || n = 0xA0 || n = 0x1680 || (0x2000 ≤ n && n ≤ 0x200A) ||
    n = 0x2028 || n = 0x2029 || n = 0x202F || n = 0x205F || n = 0x3000

/-- Rust `str::trim_end`: drop trailing whitespace. -/
def trimEndL (l : List Char) : List Char :=
  (l.reverse.dropWhile rustIsWhitespace).reverse

/-- Rust `str::lines`: split on `'\n'`, not yielding a final empty line for
a trailing newline, and stripping a trailing `'\r'` from each line. -/
def rustLines (l : List Char) : List (List Char) :=
  let parts := l.splitOn '\n'
  let parts := if l ≠ [] ∧ l.getLast? = some '\n' then parts.dropLast else parts
  if l = [] then []
  else parts.map (fun p => (dropSfx p ['\r']).getD p)

/-- Index format versions, from `Version` in src/index/mod.rs (all three
cargo features enabled). -/
inductive Version where
  | V1
  | V2
  | V3
  deriving DecidableEq, Repr

/-- The V1 prologue marker from `Version::detect`. -/
def v1Marker : String :=
  "var N=null,E=\"\",T=\"t\",U=\"u\",searchIndex=\x7b\x7d;"

/-- The V2 trailing-call marker from `Version::detect`. -/
def v2Marker : String :=
  "addSearchOptions(searchIndex);initSearch(searchIndex);"

/-- The V3 browser-global trailing-call marker from `Version::detect`. -/
def v3MarkerWindow : String :=
  "if (window.initSearch) \x7bwindow.initSearch(searchIndex)\x7d;"

/-- The V3 module-export trailing-call marker from `Version::detect`. -/
def v3MarkerExports : String :=
  "if (typeof exports !== \x27undefined\x27) \x7bexports.searchIndex = searchIndex\x7d;"

/-- `Version::detect` from src/index/mod.rs. -/
def Version.detect (index : String) : Option Version :=
  if startsWithL index.toList v1Marker.toList then some .V1
  else if endsWithL index.toList v2Marker.toList then some .V2
  else if endsWithL index.toList v3MarkerWindow.toList ||
      endsWithL (trimEndL index.toList) v3MarkerExports.toList then some .V3
  else none

/-- Result of a winnow parser: success with the remaining input, or an
error with its mode (`true` models `ErrMode::Cut`, `false` models
`ErrMode::Backtrack`). -/
inductive PRes (α : Type) where
  | ok : α → List Char → PRes α
  | err : Bool → PRes α
  deriving DecidableEq, Repr

/-- The tagged value tree of the V1 grammar, from `JsJson` in
src/index/v1.rs.  The `HashMap` of `Object` is an association list in parse
order; a lookup takes the last binding of a key, matching map insertion. -/
inductive JsJson where
  | Null
  | Str (s : String)
  | Num (n : Nat)
  | Array (xs : List JsJson)
  | Object (fs : List (String × JsJson))

/-- winnow's `cut_err`: convert a backtrack error into a cut error. -/
def cutErr {α : Type} : PRes α → PRes α
  | .ok a rest => .ok a rest
  | .err _ => .err true

/-- The whitespace set of `ws` in src/index/v1.rs. -/
def wsChars : List Char := [' ', '\t', '\r', '\n']

/-- `ws` from src/index/v1.rs (`take_while(0.., ..)` never fails, so it is
modelled directly as dropping the matched characters). -/
def skipWs (l : List Char) : List Char :=
  l.dropWhile (fun c => wsChars.contains c)

/-- A literal tag parser (winnow's `&str` as parser): backtrack error when
the input does not start with the tag. -/
def tagP (t : List Char) (input : List Char) : PRes Unit :=
  if t.isPrefixOf input then .ok () (input.drop t.length) else .err false

/-- Value of a run of decimal digits. -/
def digitsVal (ds : List Char) : Nat :=
  ds.foldl (fun a c => a * 10 + (c.toNat - '0'.toNat)) 0

/-- winnow's `dec_uint` at `u64`: one or more ASCII digits, failing on
overflow past `2^64 - 1` (the `v as usize` cast in the source is the
identity on a 64-bit target). -/
def decUintP (input : List Char) : PRes Nat :=
  let ds := input.takeWhile Char.isDigit
  if ds = [] then .err false
  else if digitsVal ds < 2 ^ 64 then .ok (digitsVal ds) (input.drop ds.length)
  else .err false

/-- `AsChar::is_hex_digit`. -/
def isHexDigitCh (c : Char) : Bool :=
  ('0' ≤ c && c ≤ '9') || ('a' ≤ c && c ≤ 'f') || ('A' ≤ c && c ≤ 'F')

/-- Value of one hex digit. -/
def hexDigitVal (c : Char) : Nat :=
  if '0' ≤ c && c ≤ '9' then c.toNat - '0'.toNat
  else if 'a' ≤ c && c ≤ 'f' then c.toNat - 'a'.toNat + 10
  else c.toNat - 'A'.toNat + 10

/-- Value of a run of hex digits (`u32::from_str_radix(hex, 16)`; four
digits never overflow `u32`, so the source's `unwrap` cannot fire). -/
def hexVal (ds : List Char) : Nat :=
  ds.foldl (fun a c => a * 16 + hexDigitVal c) 0

/-- `char::from_u32`: `none` on surrogates and out-of-range values. -/
def charFromU32 (n : Nat) : Option Char :=
  if n.isValidChar then some (Char.ofNat n) else none

/-- `unicode_escape` from src/index/v1.rs: `take_while(4, is_hex_digit)`
demands exactly four hex digits (backtrack error otherwise); the decoded
code point falls back to U+FFFD when it is not a valid scalar value. -/
def unicodeEscapeP (input : List Char) : PRes Char :=
  let hex := input.take 4
  if hex.length = 4 && hex.all isHexDigitCh then
    .ok ((charFromU32 (hexVal hex)).getD '\uFFFD') (input.drop 4)
  else .err false

/-- `character` from src/index/v1.rs: any char except `'"'`; a backslash
starts an escape dispatched on the next char. -/
def characterP : List Char → PRes Char
  | [] => .err false
  | '"' :: _ => .err false
  | '\\' :: rest =>
    match rest with
    | [] => .err false
    | e :: rest2 =>
      match e with
      | '"' => .ok '"' rest2
      | '\\' => .ok '\\' rest2
      | '/' => .ok '/' rest2
      | 'b' => .ok '\x08' rest2
      | 'f' => .ok '\x0C' rest2
      | 'n' => .ok '\n' rest2
      | 'r' => .ok '\r' rest2
      | 't' => .ok '\t' rest2
      | 'u' => unicodeEscapeP rest2
      | _ => .err false
  | c :: rest => .ok c rest

/-- The `fold_repeat(0.., character, ..)` plus closing-quote part of
`string` from src/index/v1.rs.  The fold stops at the first backtracking
`character` and propagates cut errors; `fuel` bounds the iteration count
(each successful `character` consumes at least one char, so
`input.length + 1` is always enough). -/
def stringBodyP : Nat → List Char → List Char → PRes (List Char)
  | 0, _, _ => .err false
  | fuel + 1, acc, input =>
    match characterP input with
    | .ok c rest => stringBodyP fuel (acc ++ [c]) rest
    | .err true => .err true
    | .err false =>
      match input with
      | '"' :: rest => .ok acc rest
      | _ => .err false

/-- `string` from src/index/v1.rs: an opening quote, then (inside
`cut_err`) folded characters and the closing quote. -/
def stringP (input : List Char) : PRes String :=
  match input with
  | '"' :: rest =>
    match cutErr (stringBodyP (rest.length + 1) [] rest) with
    | .ok cs rest2 => .ok (String.mk cs) rest2
    | .err b => .err b
  | _ => .err false

/-- `reference` from src/index/v1.rs: `"R["`, a `dec_uint` looked up in the
reference table (`try_map`, an error for an out-of-bounds index), and `"]"`,
the latter parts inside `cut_err`. -/
def referenceP (r : List String) (input : List Char) : PRes JsJson :=
  match tagP ("R[".toList) input with
  | .err b => .err b
  | .ok _ rest =>
    match decUintP rest with
    | .err _ => .err true
    | .ok v rest2 =>
      match r.get? v with
      | none => .err true
      | some s =>
        match tagP ([']']) rest2 with
        | .ok _ rest3 => .ok (.Str s) rest3
        | .err _ => .err true

mutual

/-- `json_value` from src/index/v1.rs: dispatch on the peeked first char.
`fuel` bounds the recursion through arrays and objects; the runner sizes it
from the input length. -/
def jsonValueP (r : List String) : Nat → List Char → PRes JsJson
  | 0, _ => .err false
  | fuel + 1, input =>
    match input with
    | [] => .err false
    | c :: _ =>
      if c = 'n' then
        match tagP ("null".toList) input with
        | .ok _ rest => .ok .Null rest
        | .err b => .err b
      else if '0' ≤ c ∧ c ≤ '9' then
        match decUintP input with
        | .ok v rest => .ok (.Num v) rest
        | .err b => .err b
      else if c = '"' then
        match stringP input with
        | .ok s rest => .ok (.Str s) rest
        | .err b => .err b
      else if c = '[' then arrayP r fuel input
      else if c = '\x7b' then objectP r fuel input
      else if c = 'N' then
        match tagP (['N']) input with
        | .ok _ rest => .ok .Null rest
        | .err b => .err b
      else if c = 'E' then
        match tagP (['E']) input with
        | .ok _ rest => .ok (.Str "") rest
        | .err b => .err b
      else if c = 'T' then
        match tagP (['T']) input with
        | .ok _ rest => .ok (.Str "t") rest
        | .err b => .err b
      else if c = 'U' then
        match tagP (['U']) input with
        | .ok _ rest => .ok (.Str "u") rest
        | .err b => .err b
      else if c = 'R' then referenceP r input
      else .err false

/-- `array` from src/index/v1.rs: `'['`, whitespace, then (inside
`cut_err`) comma-separated values and `']'`. -/
def arrayP (r : List String) : Nat → List Char → PRes JsJson
  | 0, _ => .err false
  | fuel + 1, input =>
    match tagP (['[']) input with
    | .err b => .err b
    | .ok _ rest =>
      match sepElemsP r fuel (skipWs rest) with
      | .err _ => .err true
      | .ok xs rest2 =>
        match tagP ([']']) (skipWs rest2) with
        | .ok _ rest3 => .ok (.Array xs) rest3
        | .err _ => .err true

/-- `separated0(json_value, (ws, ',', ws))`: a first element (backtrack
means an empty list) then the separator loop. -/
def sepElemsP (r : List String) : Nat → List Char → PRes (List JsJson)
  | 0, _ => .err false
  | fuel + 1, input =>
    match jsonValueP r fuel input with
    | .err true => .err true
    | .err false => .ok [] input
    | .ok x rest => sepLoopP r fuel [x] rest

/-- The repetition part of `separated0`: stop (resetting to before the
separator) when the separator or the following element backtracks. -/
def sepLoopP (r : List String) : Nat → List JsJson → List Char → PRes (List JsJson)
  | 0, _, _ => .err false
  | fuel + 1, acc, input =>
    match tagP ([',']) (skipWs input) with
    | .err _ => .ok acc input
    | .ok _ rest =>
      match jsonValueP r fuel (skipWs rest) with
      | .err true => .err true
      | .err false => .ok acc input
      | .ok x rest2 => sepLoopP r fuel (acc ++ [x]) rest2

/-- `object` from src/index/v1.rs: `'{'`, whitespace, then (inside
`cut_err`) comma-separated key/value pairs and `'}'`. -/
def objectP (r : List String) : Nat → List Char → PRes JsJson
  | 0, _ => .err false
  | fuel + 1, input =>
    match tagP (['\x7b']) input with
    | .err b => .err b
    | .ok _ rest =>
      match sepKvsP r fuel (skipWs rest) with
      | .err _ => .err true
      | .ok fs rest2 =>
        match tagP (['\x7d']) (skipWs rest2) with
        | .ok _ rest3 => .ok (.Object fs) rest3
        | .err _ => .err true

/-- `key_value` from src/index/v1.rs: `separated_pair(string,
cut_err((ws, ':', ws)), json_value)`. -/
def keyValueP (r : List String) : Nat → List Char → PRes (String × JsJson)
  | 0, _ => .err false
  | fuel + 1, input =>
    match stringP input with
    | .err b => .err b
    | .ok k rest =>
      match tagP ([':']) (skipWs rest) with
      | .err _ => .err true
      | .ok _ rest2 =>
        match jsonValueP r fuel (skipWs rest2) with
        | .err b => .err b
        | .ok v rest3 => .ok (k, v) rest3

/-- `separated0(key_value, (ws, ',', ws))`. -/
def sepKvsP (r : List String) : Nat → List Char → PRes (List (String × JsJson))
  | 0, _ => .err false
  | fuel + 1, input =>
    match keyValueP r fuel input with
    | .err true => .err true
    | .err false => .ok [] input
    | .ok x rest => sepKvLoopP r fuel [x] rest

/-- The repetition part of `separated0` over key/value pairs. -/
def sepKvLoopP (r : List String) : Nat → List (String × JsJson) → List Char →
    PRes (List (String × JsJson))
  | 0, _, _ => .err false
  | fuel + 1, acc, input =>
    match tagP ([',']) (skipWs input) with
    | .err _ => .ok acc input
    | .ok _ rest =>
      match keyValueP r fuel (skipWs rest) with
      | .err true => .err true
      | .err false => .ok acc input
      | .ok x rest2 => sepKvLoopP r fuel (acc ++ [x]) rest2

end

/-- `json` from src/index/v1.rs: a value delimited by whitespace. -/
def jsonDelimP (r : List String) (fuel : Nat) (input : List Char) : PRes JsJson :=
  match jsonValueP r fuel (skipWs input) with
  | .ok v rest => .ok v (skipWs rest)
  | .err b => .err b

/-- winnow's `Parser::parse` applied to `json`: run on the whole input and
require it to be consumed entirely.  The fuel is sized from the input
length; each fuel-consuming step consumes input within at most four nested
calls, so it is always sufficient. -/
def v1Parse (r : List String) (input : List Char) : Option JsJson :=
  match jsonDelimP r (4 * (input.length + 1)) input with
  | .ok v [] => some v
  | _ => none

/-- A JSON value, modelling `serde_json::Value` as far as the index formats
need it (numbers are integers: the index columns are integral and no
behaviour below depends on floats). -/
inductive Json where
  | null
  | bool (b : Bool)
  | num (n : Int)
  | str (s : String)
  | arr (xs : List Json)
  | obj (fs : List (String × Json))

/-- JSON whitespace. -/
def jWsChars : List Char := [' ', '\t', '\n', '\r']

/-- Skip JSON whitespace. -/
def jSkipWs (l : List Char) : List Char :=
  l.dropWhile (fun c => jWsChars.contains c)

/-- Four hex digits of a JSON `\uXXXX` escape. -/
def jHex4 (input : List Char) : Option (Nat × List Char) :=
  let hex := input.take 4
  if hex.length = 4 && hex.all isHexDigitCh then some (hexVal hex, input.drop 4)
  else none

/-- Body of a JSON string after the opening quote: standard escapes,
surrogate-pair combination for `\uXXXX` (a lone surrogate is an error, as in
serde_json), and a ban on raw control characters. -/
def jStringBody : Nat → List Char → List Char → Option (List Char × List Char)
  | 0, _, _ => none
  | fuel + 1, acc, input =>
    match input with
    | [] => none
    | '"' :: rest => some (acc, rest)
    | '\\' :: rest =>
      match rest with
      | [] => none
      | e :: rest2 =>
        match e with
        | '"' => jStringBody fuel (acc ++ ['"']) rest2
        | '\\' => jStringBody fuel (acc ++ ['\\']) rest2
        | '/' => jStringBody fuel (acc ++ ['/']) rest2
        | 'b' => jStringBody fuel (acc ++ ['\x08']) rest2
        | 'f' => jStringBody fuel (acc ++ ['\x0C']) rest2
        | 'n' => jStringBody fuel (acc ++ ['\n']) rest2
        | 'r' => jStringBody fuel (acc ++ ['\r']) rest2
        | 't' => jStringBody fuel (acc ++ ['\t']) rest2
        | 'u' =>
          match jHex4 rest2 with
          | none => none
          | some (n, rest3) =>
            if 0xD800 ≤ n ∧ n ≤ 0xDBFF then
              match rest3 with
              | '\\' :: 'u' :: rest4 =>
                match jHex4 rest4 with
                | none => none
                | some (m, rest5) =>
                  if 0xDC00 ≤ m ∧ m ≤ 0xDFFF then
                    jStringBody fuel
                      (acc ++ [Char.ofNat (0x10000 + (n - 0xD800) * 0x400 + (m - 0xDC00))])
                      rest5
                  else none
              | _ => none
            else if 0xDC00 ≤ n ∧ n ≤ 0xDFFF then none
            else jStringBody fuel (acc ++ [Char.ofNat n]) rest3
        | _ => none
    | c :: rest => if c.toNat < 0x20 then none else jStringBody fuel (acc ++ [c]) rest

/-- A JSON string literal. -/
def jString (input : List Char) : Option (String × List Char) :=
  match input with
  | '"' :: rest =>
    match jStringBody (rest.length + 1) [] rest with
    | some (cs, rest2) => some (String.mk cs, rest2)
    | none => none
  | _ => none

/-- A JSON integer (optional minus then digits). -/
def jNumber (input : List Char) : Option (Int × List Char) :=
  match input with
  | '-' :: rest =>
    let ds := rest.takeWhile Char.isDigit
    if ds = [] then none else some (-(digitsVal ds : Int), rest.drop ds.length)
  | _ =>
    let ds := input.takeWhile Char.isDigit
    if ds = [] then none else some ((digitsVal ds : Int), input.drop ds.length)

mutual

/-- A JSON value, by dispatch on the first character. -/
def jValue : Nat → List Char → Option (Json × List Char)
  | 0, _ => none
  | fuel + 1, input =>
    match input with
    | [] => none
    | c :: _ =>
      if c = 'n' then
        match tagP ("null".toList) input with
        | .ok _ rest => some (.null, rest)
        | .err _ => none
      else if c = 't' then
        match tagP ("true".toList) input with
        | .ok _ rest => some (.bool true, rest)
        | .err _ => none
      else if c = 'f' then
        match tagP ("false".toList) input with
        | .ok _ rest => some (.bool false, rest)
        | .err _ => none
      else if c = '"' then (jString input).map (fun p => (.str p.1, p.2))
      else if c = '-' ∨ ('0' ≤ c ∧ c ≤ '9') then
        (jNumber input).map (fun p => (.num p.1, p.2))
      else if c = '[' then jArray fuel input
      else if c = '\x7b' then jObject fuel input
      else none

/-- A JSON array. -/
def jArray : Nat → List Char → Option (Json × List Char)
  | 0, _ => none
  | fuel + 1, input =>
    match input with
    | '[' :: rest =>
      match jSkipWs rest with
      | ']' :: rest2 => some (.arr [], rest2)
      | rest2 => (jArrayTail fuel [] rest2).map (fun p => (.arr p.1, p.2))
    | _ => none

/-- Elements of a JSON array after the first non-`]` position. -/
def jArrayTail : Nat → List Json → List Char → Option (List Json × List Char)
  | 0, _, _ => none
  | fuel + 1, acc, input =>
    match jValue fuel input with
    | none => none
    | some (v, rest) =>
      match jSkipWs rest with
      | ',' :: rest2 => jArrayTail fuel (acc ++ [v]) (jSkipWs rest2)
      | ']' :: rest2 => some (acc ++ [v], rest2)
      | _ => none

/-- A JSON object. -/
def jObject : Nat → List Char → Option (Json × List Char)
  | 0, _ => none
  | fuel + 1, input =>
    match input with
    | '\x7b' :: rest =>
      match jSkipWs rest with
      | '\x7d' :: rest2 => some (.obj [], rest2)
      | rest2 => (jObjectTail fuel [] rest2).map (fun p => (.obj p.1, p.2))
    | _ => none

/-- Members of a JSON object after the first non-`}` position. -/
def jObjectTail : Nat → List (String × Json) → List Char →
    Option (List (String × Json) × List Char)
  | 0, _, _ => none
  | fuel + 1, acc, input =>
    match jString input with
    | none => none
    | some (k, rest) =>
      match jSkipWs rest with
      | ':' :: rest2 =>
        match jValue fuel (jSkipWs rest2) with
        | none => none
        | some (v, rest3) =>
          match jSkipWs rest3 with
          | ',' :: rest4 => jObjectTail fuel (acc ++ [(k, v)]) (jSkipWs rest4)
          | '\x7d' :: rest4 => some (acc ++ [(k, v)], rest4)
          | _ => none
      | _ => none

end

/-- `serde_json::from_str`'s parsing stage: a value surrounded by
whitespace, consuming the whole input. -/
def jParse (input : List Char) : Option Json :=
  match jValue (4 * (input.length + 1)) (jSkipWs input) with
  | some (v, rest) => if jSkipWs rest = [] then some v else none
  | none => none

/-- Lookup of an object field (the last binding of the key wins, matching
collection of entries into a map). -/
def objLookup (fs : List (String × Json)) (k : String) : Option Json :=
  ((fs.filter (fun f => f.1 = k)).getLast?).map (fun f => f.2)

/-- Deserialize a `String`. -/
def deString : Json → Option String
  | .str s => some s
  | _ => none

/-- Deserialize a `usize` (64-bit). -/
def deNat : Json → Option Nat
  | .num n => if 0 ≤ n ∧ n < 2 ^ 64 then some n.toNat else none
  | _ => none

/-- Deserialize an `ItemType` via its `Deserialize_repr` impl: a `u8`
matched against the 26 discriminants, erroring otherwise. -/
def deItemType : Json → Option ItemType
  | .num n => if 0 ≤ n ∧ n < 256 then ItemType.fromRaw n.toNat else none
  | _ => none

/-- `is_ascii_uppercase` (the source checks UTF-8 bytes; a non-ASCII char
fails the test byte-wise just as it does char-wise here). -/
def isAsciiUppercase (c : Char) : Bool :=
  'A' ≤ c && c ≤ 'Z'

/-- `VecItemTypeVisitor` (src/index/mod.rs): either a packed string of
uppercase ASCII letters encoding `code = letter - 'A'`, or a sequence of
`ItemType` codes. -/
def deT : Json → Option (List ItemType)
  | .str s => s.toList.mapM (fun ch =>
      if isAsciiUppercase ch then ItemType.fromRaw (ch.toNat - 'A'.toNat) else none)
  | .arr xs => xs.mapM deItemType
  | _ => none

/-- An element of the `q` array: the untagged `String`/`(usize, String)`
enum local to `VecPathVisitor::visit_seq`. -/
inductive QVal where
  | str (s : String)
  | tup (pos : Nat) (s : String)
  deriving DecidableEq, Repr

/-- Insertion into a `BTreeMap<usize, String>` modelled as a sorted
association list; inserting an existing key overwrites its value. -/
def btInsertNat : List (Nat × String) → Nat → String → List (Nat × String)
  | [], k, v => [(k, v)]
  | (k2, v2) :: rest, k, v =>
    if k < k2 then (k, v) :: (k2, v2) :: rest
    else if k = k2 then (k, v) :: rest
    else (k2, v2) :: btInsertNat rest k v

/-- The element loop of `VecPathVisitor::visit_seq` (src/index/mod.rs): an
empty string advances the position without inserting; a nonempty string
inserts at the running position; a tuple inserts at its own position.  The
running position advances by one after every non-skipped element. -/
def visitSeqQ : List QVal → Nat → List (Nat × String) → List (Nat × String)
  | [], _, m => m
  | .str s :: rest, pos, m =>
    if s = "" then visitSeqQ rest (pos + 1) m
    else visitSeqQ rest (pos + 1) (btInsertNat m pos s)
  | .tup k s :: rest, pos, m => visitSeqQ rest (pos + 1) (btInsertNat m k s)

/-- Deserialize one `q` element (serde untagged: `String` first, then the
`(usize, String)` tuple). -/
def deQVal : Json → Option QVal
  | .str s => some (.str s)
  | .arr [jn, js] => do
    let n ← deNat jn
    let s ← deString js
    pure (.tup n s)
  | _ => none

/-- The `q` deserializer (src/index/mod.rs `fn q`): a sequence visited by
`VecPathVisitor`. -/
def deQ : Json → Option (List (Nat × String))
  | .arr xs => (xs.mapM deQVal).map (fun l => visitSeqQ l 0 [])
  | _ => none

/-- Deserialize a `(ItemType, String)` pair. -/
def dePair : Json → Option (ItemType × String)
  | .arr [ja, jb] => do
    let a ← deItemType ja
    let b ← deString jb
    pure (a, b)
  | _ => none

/-- Deserialize the parent table `Vec<(ItemType, String)>`. -/
def dePairList : Json → Option (List (ItemType × String))
  | .arr xs => xs.mapM dePair
  | _ => none

/-- Deserialize a `Vec<String>`. -/
def deStringList : Json → Option (List String)
  | .arr xs => xs.mapM deString
  | _ => none

/-- Deserialize a `Vec<usize>`. -/
def deNatList : Json → Option (List Nat)
  | .arr xs => xs.mapM deNat
  | _ => none

/-- Derived deserializer of `RawCrateData` (src/index/mod.rs): required
fields `doc`, `t`, `n`, `q`, `d`, `i`, `p`; unknown fields (such as `f`)
are ignored. -/
def deRawCrateData (j : Json) : Option RawCrateData :=
  match j with
  | .obj fs => do
    let doc ← objLookup fs "doc" >>= deString
    let t ← objLookup fs "t" >>= deT
    let n ← objLookup fs "n" >>= deStringList
    let q ← objLookup fs "q" >>= deQ
    let d ← objLookup fs "d" >>= deStringList
    let i ← objLookup fs "i" >>= deNatList
    let p ← objLookup fs "p" >>= dePairList
    pure ⟨doc, t, n, q, d, i, p⟩
  | _ => none

/-- Derived deserializer of `RawIndexData` (src/index/mod.rs): the
flattened map from crate name to crate data. -/
def deRawIndexData : Json → Option RawIndexData
  | .obj fs => (fs.mapM (fun f => (deRawCrateData f.2).map (fun c => (f.1, c)))).map
      (fun crates => ⟨crates⟩)
  | _ => none

/-- Errors from parsing the old V1 index, from `IndexV1Error` in
src/error.rs (foreign error payloads dropped). -/
inductive IndexV1Error where
  | MissingReference
  | InvalidReferenceJson
  | InvalidIndexJavaScript
  | InvalidIndexJson
  deriving DecidableEq, Repr

/-- Errors from `load`, from `Error` in src/error.rs (restricted to the
variants reachable from the index pipeline; foreign payloads dropped). -/
inductive Error where
  | Json
  | UnsupportedIndexVersion
  | InvalidV1Index (e : IndexV1Error)
  deriving DecidableEq, Repr

/-- The JSON-extraction part of `load_raw` (src/index/mod.rs), shared
verbatim with the V2 loader (src/index/v2.rs): keep the lines starting with
a quote, strip the trailing line-continuation backslash, concatenate inside
braces, and undo the generator's escaping transforms in order. -/
def extractIndexJson (index : String) : List Char :=
  let body := (rustLines index.toList).filterMap
    (fun l => if l.head? = some '"' then dropSfx l ['\\'] else none)
  let json := ('\x7b' :: body.foldl (fun j l => j ++ l) []) ++ ['\x7d']
  rustReplace ['\\', '\\'] ['\\']
    (rustReplace ['\\', '\x27'] ['\x27']
      (rustReplace ['\\', '\\', '"'] ['\\', '"'] json))

/-- `load_raw` from src/index/mod.rs (the V3 loader): extract the JSON and
run `serde_json` deserialization of `RawIndexData`. -/
def loadRawV3 (index : String) : Except Error RawIndexData :=
  match jParse (extractIndexJson index) with
  | none => .error .Json
  | some j =>
    match deRawIndexData j with
    | none => .error .Json
    | some raw => .ok raw

/-- An `Entry` of the V2 format (src/index/v2.rs): a 6-element tuple with
optional fields; the trailing `f` element is validated but dropped. -/
structure V2Entry where
  t : ItemType
  n : Option String
  q : Option String
  d : Option String
  i : Option Nat
  deriving DecidableEq, Repr

/-- Deserialize an `Option<String>` tuple slot. -/
def deOptString : Json → Option (Option String)
  | .null => some none
  | .str s => some (some s)
  | _ => none

/-- Deserialize an `Option<usize>` tuple slot. -/
def deOptNat : Json → Option (Option Nat)
  | .null => some none
  | .num n => if 0 ≤ n ∧ n < 2 ^ 64 then some n.toNat else none
  | _ => none

/-- Deserialize a V2 `Entry` (`serde_tuple`: exactly six elements). -/
def deV2Entry : Json → Option V2Entry
  | .arr [jt, jn, jq, jd, ji, jf] => do
    let t ← deItemType jt
    let n ← deOptString jn
    let q ← deOptString jq
    let d ← deOptString jd
    let i ← deOptNat ji
    let _ ← (match jf with
      | .null => some ()
      | .arr _ => some ()
      | _ => none)
    pure ⟨t, n, q, d, i⟩
  | _ => none

/-- `RawCrate` from src/index/v2.rs (also the target of the V1 coercion). -/
structure RawCrate where
  doc : String
  i : List V2Entry
  p : List (ItemType × String)
  deriving DecidableEq, Repr

/-- Derived deserializer of `RawCrate`. -/
def deRawCrate (j : Json) : Option RawCrate :=
  match j with
  | .obj fs => do
    let doc ← objLookup fs "doc" >>= deString
    let i ← objLookup fs "i" >>= (fun x => match x with
      | .arr xs => xs.mapM deV2Entry
      | _ => none)
    let p ← objLookup fs "p" >>= dePairList
    pure ⟨doc, i, p⟩
  | _ => none

/-- `From<RawCrate> for RawCrateData` (src/index/v2.rs): split the entries
into columns; `q` keeps only the nonempty paths keyed by entry position. -/
def rawCrateToData (raw : RawCrate) : RawCrateData :=
  { doc := raw.doc
    t := raw.i.map (fun e => e.t)
    n := raw.i.map (fun e => e.n.getD "")
    q := raw.i.enum.filterMap (fun e =>
      let q := e.2.q.getD ""
      if q ≠ "" then some (e.1, q) else none)
    d := raw.i.map (fun e => e.d.getD "")
    i := raw.i.map (fun e => e.i.getD 0)
    p := raw.p }

/-- `load_raw` from src/index/v2.rs: the shared JSON extraction, then
`RawIndex` deserialization and the per-crate conversion. -/
def loadRawV2 (index : String) : Except Error RawIndexData :=
  match jParse (extractIndexJson index) with
  | none => .error .Json
  | some j =>
    match j with
    | .obj fs =>
      match fs.mapM (fun f => (deRawCrate f.2).map (fun c => (f.1, rawCrateToData c))) with
      | none => .error .Json
      | some crates => .ok ⟨crates⟩
    | _ => .error .Json

/-- The `(name, value)` entry lines of a V1 document (src/index/v1.rs
`load_raw`): lines of the form `searchIndex["<name>"]=<value>;`. -/
def v1Entries (index : String) : List (List Char × List Char) :=
  (rustLines index.toList).filterMap (fun line =>
    (dropPfx line ("searchIndex[\"".toList)).bind (fun l2 =>
      (dropSfx l2 [';']).bind (fun l3 =>
        splitOnceL ("\"]=".toList) l3)))

mutual

/-- `TryFrom<JsJson> for serde_json::Value` (src/index/v1.rs); no arm of
the conversion can fail, so it is total here. -/
def jsJsonToJson : JsJson → Json
  | .Null => .null
  | .Str s => .str s
  | .Num n => .num n
  | .Array xs => .arr (jsJsonListToJson xs)
  | .Object fs => .obj (jsJsonObjToJson fs)

/-- Elementwise conversion of an array's members. -/
def jsJsonListToJson : List JsJson → List Json
  | [] => []
  | x :: xs => jsJsonToJson x :: jsJsonListToJson xs

/-- Entrywise conversion of an object's members. -/
def jsJsonObjToJson : List (String × JsJson) → List (String × Json)
  | [] => []
  | (k, v) :: fs => (k, jsJsonToJson v) :: jsJsonObjToJson fs

end

/-- The per-entry decode step of `load_raw` (src/index/v1.rs): parse the
value with the V1 grammar, convert to a JSON value, and deserialize
`RawCrate`, converting into the common raw shape. -/
def decodeV1Entry (r : List String) (e : List Char × List Char) :
    Except IndexV1Error (String × RawCrateData) :=
  match v1Parse r e.2 with
  | none => .error .InvalidIndexJavaScript
  | some js =>
    match deRawCrate (jsJsonToJson js) with
    | none => .error .InvalidIndexJson
    | some c => .ok (String.mk e.1, rawCrateToData c)

/-- `load_raw` from src/index/v1.rs: find and JSON-decode the reference
table line `var R=[..];`, then decode every entry line, aborting at the
first failing entry (`collect::<Result<_, _>>`). -/
def loadRawV1 (index : String) : Except IndexV1Error RawIndexData :=
  match ((rustLines index.toList).findSome?
      (fun line => dropPfx line ("var R=".toList))).bind (fun l => dropSfx l [';']) with
  | none => .error .MissingReference
  | some rline =>
    match jParse rline >>= (fun j => match j with
      | .arr xs => xs.mapM deString
      | _ => none) with
    | none => .error .InvalidReferenceJson
    | some r =>
      ((v1Entries index).mapM (decodeV1Entry r)).map (fun crates => ⟨crates⟩)

/-- `load` from src/index/mod.rs: detect the version, decode the raw data
with the matching loader, transform, and generate the mapping.  The outer
`Option` models a panic inside mapping generation. -/
def load (index : String) :
    Option (Except Error (List (String × List (String × String)))) :=
  match Version.detect index with
  | some .V3 =>
    match loadRawV3 index with
    | .error e => some (.error e)
    | .ok raw => (generateMapping (transform raw)).map (fun m => .ok m)
  | some .V2 =>
    match loadRawV2 index with
    | .error e => some (.error e)
    | .ok raw => (generateMapping (transform raw)).map (fun m => .ok m)
  | some .V1 =>
    match loadRawV1 index with
    | .error e => some (.error (.InvalidV1Index e))
    | .ok raw => (generateMapping (transform raw)).map (fun m => .ok m)
  | none => some (.error .UnsupportedIndexVersion)

/-- The carry-forward recurrence of the Record Reconstructor, as the spec
states it: position `base` starts from `seed`; each later position takes
its `path_delta` entry when present and otherwise the previous position's
resolved value. -/
def resolvedPath (q : List (Nat × String)) (seed : String) (base : Nat) : Nat → String
  | 0 => (qLookup q base).getD seed
  | pos + 1 => (qLookup q (base + (pos + 1))).getD (resolvedPath q seed base pos)

/-- Sample raw data for the carry-forward instance: `path_delta = {0: "a"}`
and three items. -/
def carrySampleRaw : RawCrateData :=
  { doc := "", t := [.Module, .Module, .Module], n := ["x", "y", "z"],
    q := [(0, "a")], d := ["", "", ""], i := [0, 0, 0], p := [] }

/-- Raw data whose only item has `parent_ref = 5` while the parent table is
empty: the adjusted parent index 4 is out of bounds. -/
def parentOobRaw : RawCrateData :=
  { doc := "", t := [.Method], n := ["m"], q := [(0, "p")], d := [""], i := [5], p := [] }

/-- Raw data with columns of unequal lengths (2, 3, 1 and 4 entries). -/
def raggedRaw : RawCrateData :=
  { doc := "", t := [.Module, .Struct], n := ["a", "b", "c"], q := [],
    d := ["d0"], i := [0, 1, 2, 3], p := [] }

/-! Helper lemmas about the transform fold. -/

lemma qRemove_fst (q : List (Nat × String)) (key : Nat) :
    (qRemove q key).1 = qLookup q key := by
  induction q with
  | nil => rfl
  | cons kv rest ih =>
    obtain ⟨k, v⟩ := kv
    by_cases h : k = key <;> simp [qRemove, qLookup, h, ih]

lemma qRemove_lookup_ne (q : List (Nat × String)) (key m : Nat) (h : key ≠ m) :
    qLookup (qRemove q key).2 m = qLookup q m := by
  induction q with
  | nil => rfl
  | cons kv rest ih =>
    obtain ⟨k, v⟩ := kv
    by_cases hk : k = key
    · subst hk
      have hm : ¬(k = m) := fun hh => h (hh ▸ rfl)
      simp [qRemove, qLookup, hm]
    · by_cases hm : k = m
      · subst hm
        simp [qRemove, qLookup, hk]
      · simp [qRemove, qLookup, hk, hm, ih]

lemma resolvedPath_shift (q : List (Nat × String)) (path : String) (k : Nat) :
    ∀ j, resolvedPath (qRemove q k).2 ((qLookup q k).getD path) (k + 1) j =
      resolvedPath q path k (j + 1) := by
  intro j
  induction j with
  | zero =>
    simp only [resolvedPath]
    rw [qRemove_lookup_ne q k (k + 1) (by omega)]
  | succ j ih =>
    have h1 : resolvedPath (qRemove q k).2 ((qLookup q k).getD path) (k + 1) (j + 1) =
        (qLookup (qRemove q k).2 ((k + 1) + (j + 1))).getD
          (resolvedPath (qRemove q k).2 ((qLookup q k).getD path) (k + 1) j) := rfl
    have h2 : resolvedPath q path k ((j + 1) + 1) =
        (qLookup q (k + ((j + 1) + 1))).getD (resolvedPath q path k (j + 1)) := rfl
    rw [h1, h2, ih, qRemove_lookup_ne q k ((k + 1) + (j + 1)) (by omega)]
    have he : (k + 1) + (j + 1) = k + ((j + 1) + 1) := by omega
    rw [he]

lemma transformLoop_path :
    ∀ (t : List ItemType) (n d : List String) (i : List Nat) (k : Nat) (path : String)
      (q : List (Nat × String)) (pos : Nat) (item : IndexItem),
      (transformLoop ((((List.enumFrom k t).zip n).zip d).zip i) path q).get? pos =
        some item →
      item.path = resolvedPath q path k pos := by
  intro t
  induction t with
  | nil =>
    intro n d i k path q pos item h
    simp [transformLoop] at h
  | cons tv t ih =>
    intro n d i k path q pos item h
    match n, d, i with
    | [], _, _ => simp [transformLoop] at h
    | _ :: _, [], _ => simp [transformLoop] at h
    | _ :: _, _ :: _, [] => simp [transformLoop] at h
    | nv :: n', dv :: d', iv :: i' =>
      simp only [List.enumFrom, List.zip_cons_cons, transformLoop] at h
      cases pos with
      | zero =>
        simp only [List.get?] at h
        injection h with h
        rw [← h]
        show (qRemove q k).1.getD path = _
        rw [qRemove_fst]
        rfl
      | succ j =>
        simp only [List.get?] at h
        have := ih n' d' i' (k + 1) ((qRemove q k).1.getD path) (qRemove q k).2 j item h
        rw [this, qRemove_fst]
        exact resolvedPath_shift q path k j

lemma transformLoop_length (rows : List ((((Nat × ItemType) × String) × String) × Nat))
    (path : String) (q : List (Nat × String)) :
    (transformLoop rows path q).length = rows.length := by
  induction rows generalizing path q with
  | nil => rfl
  | cons row rows ih =>
    obtain ⟨⟨⟨⟨p, tv⟩, nv⟩, dv⟩, iv⟩ := row
    simp [transformLoop, ih]

lemma transformLoop_get_row :
    ∀ (rows : List ((((Nat × ItemType) × String) × String) × Nat)) (path : String)
      (q : List (Nat × String)) (pos : Nat) (item : IndexItem),
      (transformLoop rows path q).get? pos = some item →
      ∃ row, rows.get? pos = some row ∧ item.ty = row.1.1.1.2 ∧ item.name = row.1.1.2 ∧
        item.desc = row.1.2 ∧
        item.parentIdx = (if 0 < row.2 then some (row.2 - 1) else none) := by
  intro rows
  induction rows with
  | nil =>
    intro path q pos item h
    simp [transformLoop] at h
  | cons row rows ih =>
    intro path q pos item h
    obtain ⟨⟨⟨⟨p, tv⟩, nv⟩, dv⟩, iv⟩ := row
    simp only [transformLoop] at h
    cases pos with
    | zero =>
      simp only [List.get?] at h
      injection h with h
      exact ⟨((((p, tv), nv), dv), iv), rfl, by rw [← h], by rw [← h], by rw [← h],
        by rw [← h]⟩
    | succ j =>
      simp only [List.get?] at h
      obtain ⟨row, hr, h1, h2, h3, h4⟩ := ih _ _ j item h
      exact ⟨row, hr, h1, h2, h3, h4⟩

lemma rawRows_get (raw : RawCrateData) (pos : Nat)
    (row : (((Nat × ItemType) × String) × String) × Nat) :
    (((raw.t.enum.zip raw.n).zip raw.d).zip raw.i).get? pos = some row →
    row.1.1.1.1 = pos ∧ raw.t.get? pos = some row.1.1.1.2 ∧
      raw.n.get? pos = some row.1.1.2 ∧ raw.d.get? pos = some row.1.2 ∧
      raw.i.get? pos = some row.2 := by
  intro h
  rw [List.get?_zip_eq_some] at h
  obtain ⟨h1, h4⟩ := h
  rw [List.get?_zip_eq_some] at h1
  obtain ⟨h2, h3⟩ := h1
  rw [List.get?_zip_eq_some] at h2
  obtain ⟨h5, h6⟩ := h2
  rw [List.get?_enum] at h5
  cases ht : raw.t.get? pos with
  | none => rw [ht] at h5; simp at h5
  | some tv =>
    rw [ht] at h5
    simp only [Option.map_some'] at h5
    injection h5 with h5
    have htv : row.1.1.1.2 = tv := by rw [← h5]
    exact ⟨by rw [← h5], by rw [htv], h6, h3, h4⟩

lemma mapM_singleton {α β : Type} (f : α → Option β) (a : α) :
    List.mapM f [a] = (f a).map (fun b => [b]) := by
  cases h : f a <;> simp [List.mapM, List.mapM.loop, h]

/-! Claim theorems. -/

/-- C4 (confirmed): the Record Reconstructor resolves item paths by
carry-forward — each position's resolved path is the `path_delta` entry
when present and otherwise the previous position's resolved path, with the
accumulator seeded empty (captured by the recurrence `resolvedPath`); in
particular for `path_delta = {0: "a"}` and three items all three resolved
paths are `"a"`. -/
theorem c4_carry_forward :
    (∀ (raw : RawCrateData) (pos : Nat) (item : IndexItem),
      (transformCrate raw).items.get? pos = some item →
      item.path = resolvedPath raw.q "" 0 pos) ∧
    (∀ (raw : RawCrateData) (pos : Nat) (item prev : IndexItem),
      (transformCrate raw).items.get? (pos + 1) = some item →
      (transformCrate raw).items.get? pos = some prev →
      qLookup raw.q (pos + 1) = none → item.path = prev.path) ∧
    (∀ (raw : RawCrateData) (pos : Nat) (item : IndexItem) (s : String),
      (transformCrate raw).items.get? pos = some item →
      qLookup raw.q pos = some s → item.path = s) ∧
    (transformCrate carrySampleRaw).items.map (fun it => it.path) = ["a", "a", "a"] := by
  have base : ∀ (raw : RawCrateData) (pos : Nat) (item : IndexItem),
      (transformCrate raw).items.get? pos = some item →
      item.path = resolvedPath raw.q "" 0 pos := by
    intro raw pos item h
    exact transformLoop_path raw.t raw.n raw.d raw.i 0 "" raw.q pos item h
  refine ⟨base, ?_, ?_, rfl⟩
  · intro raw pos item prev h1 h2 hq
    rw [base raw (pos + 1) item h1, base raw pos prev h2]
    show (qLookup raw.q (0 + (pos + 1))).getD _ = _
    rw [Nat.zero_add, hq]
    rfl
  · intro raw pos item s h hq
    rw [base raw pos item h]
    cases pos with
    | zero =>
      show (qLookup raw.q 0).getD "" = s
      rw [hq]
      rfl
    | succ j =>
      show (qLookup raw.q (0 + (j + 1))).getD _ = s
      rw [Nat.zero_add, hq]
      rfl

/-- C4 witness: the first conjunct applied to the sample data at position 1
(no `path_delta` entry: the path is inherited from position 0). -/
theorem c4_carry_forward_witness :
    ((⟨ItemType.Module, "y", "a", "", none⟩ : IndexItem)).path = resolvedPath carrySampleRaw.q "" 0 1 :=
  c4_carry_forward.1 carrySampleRaw 1 _ rfl

/-- C1 counterexample: for the package `parentOobRaw` the single item's
`parent_ref = 5` resolves to `parent_index = Some 4`, which is out of
bounds of the empty parent table; decoding does not fail with a
`ShapeMismatch` error — URL generation indexes `paths[4]` and panics
(modelled as `none`), so the claimed error-instead-of-panic behaviour is
false. -/
theorem c1_counterexample :
    (transformCrate parentOobRaw).items.map (fun it => it.parentIdx) = [some 4] ∧
    generateCrateMapping (transformCrate parentOobRaw) = none :=
  ⟨rfl, rfl⟩

/-- C1 (amended, corrected): `parent_ref = 0` resolves to no parent and
`parent_ref = k > 0` resolves to `parent_index = Some (k-1)`; but an
out-of-bounds `k-1` is not detected during decoding — URL synthesis panics
on the out-of-bounds index (modelled as `none`) instead of failing with a
decode error. -/
theorem c1_parent_sentinel :
    (∀ (raw : RawCrateData) (pos k : Nat) (item : IndexItem),
      (transformCrate raw).items.get? pos = some item →
      raw.i.get? pos = some k →
      item.parentIdx = if 0 < k then some (k - 1) else none) ∧
    generateCrateMapping (transformCrate parentOobRaw) = none := by
  refine ⟨?_, rfl⟩
  intro raw pos k item h hk
  obtain ⟨row, hr, _, _, _, h4⟩ := transformLoop_get_row _ _ _ pos item h
  have := (rawRows_get raw pos row hr).2.2.2.2
  rw [hk] at this
  injection this with this
  rw [h4, this]

/-- C1 witness: the sentinel conjunct applied to `parentOobRaw` at position
0 with `parent_ref = 5`. -/
theorem c1_parent_sentinel_witness :
    ((⟨ItemType.Method, "m", "p", "", some 4⟩ : IndexItem)).parentIdx =
      (if 0 < 5 then some (5 - 1) else none) :=
  c1_parent_sentinel.1 parentOobRaw 0 5 _ rfl rfl

/-- C10 (confirmed): with parallel columns of unequal lengths the
reconstruction neither fails nor panics: it produces exactly as many items
as the shortest of the `t`, `n`, `d`, `i` columns (the zips truncate), and
each produced item's fields come from the columns at its own position. -/
theorem c10_column_truncation :
    ∀ (raw : RawCrateData),
      (transformCrate raw).items.length =
        ((raw.t.length ⊓ raw.n.length) ⊓ raw.d.length) ⊓ raw.i.length ∧
      (∀ (pos : Nat) (item : IndexItem),
        (transformCrate raw).items.get? pos = some item →
        raw.t.get? pos = some item.ty ∧ raw.n.get? pos = some item.name ∧
          raw.d.get? pos = some item.desc ∧
          ∃ k, raw.i.get? pos = some k ∧
            item.parentIdx = (if 0 < k then some (k - 1) else none)) := by
  intro raw
  constructor
  · show (transformLoop _ _ _).length = _
    rw [transformLoop_length]
    simp [List.length_zip, List.enum_length]
  · intro pos item h
    obtain ⟨row, hr, h1, h2, h3, h4⟩ := transformLoop_get_row _ _ _ pos item h
    obtain ⟨_, ht, hn, hd, hi⟩ := rawRows_get raw pos row hr
    exact ⟨by rw [ht, h1], by rw [hn, h2], by rw [hd, h3], row.2, hi, h4⟩

/-- C10 witness: the theorem applied to `raggedRaw` (columns of lengths 2,
3, 1 and 4): exactly one item is produced, with the fields of position 0. -/
theorem c10_column_truncation_witness :
    (transformCrate raggedRaw).items.length =
      ((raggedRaw.t.length ⊓ raggedRaw.n.length) ⊓ raggedRaw.d.length) ⊓
        raggedRaw.i.length ∧
    (raggedRaw.t.get? 0 = some ItemType.Module ∧
      raggedRaw.n.get? 0 = some "a" ∧ raggedRaw.d.get? 0 = some "d0" ∧
      ∃ k, raggedRaw.i.get? 0 = some k ∧
        ((⟨ItemType.Module, "a", "", "d0", none⟩ : IndexItem)).parentIdx =
          (if 0 < k then some (k - 1) else none)) :=
  ⟨(c10_column_truncation raggedRaw).1, (c10_column_truncation raggedRaw).2 0 _ rfl⟩

/-- C5 (confirmed): the synthesizer maps an item without parent to the pair
`(path::name, path-as-slashes/kind.name.html)` and an item with parent
`(pk, pn)` to `(path::pn::name, path-as-slashes/pk.pn.html#kind.name)`;
in particular `Function foo` at `bar` gives `bar/fn.foo.html` and `Method
baz` with parent `(Struct, Bar)` gives `bar/struct.Bar.html#method.baz`. -/
theorem c5_url_synthesis :
    (∀ (doc : String) (paths : List (ItemType × String)) (item : IndexItem),
      item.parentIdx = none →
      generateCrateMapping ⟨doc, [item], paths⟩ =
        some [(item.path ++ "::" ++ item.name,
          replaceDoubleColon item.path ++ "/" ++ item.ty.asStr ++ "." ++
            item.name ++ ".html")]) ∧
    (∀ (doc : String) (paths : List (ItemType × String)) (item : IndexItem) (idx : Nat)
      (parent : ItemType × String),
      item.parentIdx = some idx → paths.get? idx = some parent →
      generateCrateMapping ⟨doc, [item], paths⟩ =
        some [(item.path ++ "::" ++ parent.2 ++ "::" ++ item.name,
          replaceDoubleColon item.path ++ "/" ++ parent.1.asStr ++ "." ++ parent.2 ++
            ".html#" ++ item.ty.asStr ++ "." ++ item.name)]) ∧
    generateCrateMapping ⟨"", [⟨.Function, "foo", "bar", "", none⟩], []⟩ =
      some [("bar::foo", "bar/fn.foo.html")] ∧
    generateCrateMapping ⟨"", [⟨.Method, "baz", "bar", "", some 0⟩], [(.Struct, "Bar")]⟩ =
      some [("bar::Bar::baz", "bar/struct.Bar.html#method.baz")] := by
  refine ⟨?_, ?_, rfl, rfl⟩
  · intro doc paths item hp
    have he : itemEntry paths item =
        some (item.path ++ "::" ++ item.name,
          replaceDoubleColon item.path ++ "/" ++ item.ty.asStr ++ "." ++
            item.name ++ ".html") := by
      simp [itemEntry, hp]
    show (List.mapM (itemEntry paths) [item]).map _ = _
    rw [mapM_singleton, he]
    rfl
  · intro doc paths item idx parent hp hidx
    have he : itemEntry paths item =
        some (item.path ++ "::" ++ parent.2 ++ "::" ++ item.name,
          replaceDoubleColon item.path ++ "/" ++ parent.1.asStr ++ "." ++ parent.2 ++
            ".html#" ++ item.ty.asStr ++ "." ++ item.name) := by
      simp [itemEntry, hp, ← List.get?_eq_getElem?, hidx]
    show (List.mapM (itemEntry paths) [item]).map _ = _
    rw [mapM_singleton, he]
    rfl

/-- C5 witness: the no-parent conjunct applied to the `Function foo` item. -/
theorem c5_url_synthesis_witness :
    generateCrateMapping ⟨"", [⟨ItemType.Function, "foo", "bar", "", none⟩], []⟩ =
      some [("bar::foo",
        replaceDoubleColon "bar" ++ "/" ++ ItemType.Function.asStr ++ "." ++
          "foo" ++ ".html")] := by
  have := c5_url_synthesis.1 "" [] ⟨ItemType.Function, "foo", "bar", "", none⟩ rfl
  simpa using this

/-- Codes at or above 26 hit the catch-all arm of `from_raw`. -/
lemma fromRaw_add26 (k : Nat) : ItemType.fromRaw (k + 26) = none := rfl

/-- C6 (confirmed): every type code `0..=25` maps to a kind whose URL
segment reverse-looks-up to the same code, every code `26` or above is
rejected by `from_raw` (no default kind), and the `serde` item-type
deserializer likewise errors on such codes. -/
theorem c6_type_code_roundtrip :
    (∀ c : Nat, c < 26 →
      (ItemType.fromRaw c).bind (fun t => segmentToCode t.asStr) = some c) ∧
    (∀ c : Nat, 26 ≤ c → ItemType.fromRaw c = none) ∧
    (∀ c : Nat, 26 ≤ c → c < 256 → deItemType (.num (c : Int)) = none) := by
  have h26 : ∀ c : Nat, 26 ≤ c → ItemType.fromRaw c = none := by
    intro c hc
    obtain ⟨k, hk⟩ := Nat.exists_eq_add_of_le hc
    rw [hk, Nat.add_comm]
    exact fromRaw_add26 k
  refine ⟨by decide, h26, ?_⟩
  intro c hc hc2
  simp only [deItemType]
  rw [if_pos (by constructor <;> omega)]
  rw [Int.toNat_ofNat]
  exact h26 c hc

/-- C6 witness: the round trip at code 11 (`method`) and the rejection of
code 30. -/
theorem c6_type_code_roundtrip_witness :
    (ItemType.fromRaw 11).bind (fun t => segmentToCode t.asStr) = some 11 ∧
    ItemType.fromRaw 30 = none ∧ deItemType (.num (30 : Int)) = none :=
  ⟨c6_type_code_roundtrip.1 11 (by decide), c6_type_code_roundtrip.2.1 30 (by decide),
    c6_type_code_roundtrip.2.2 30 (by decide) (by decide)⟩

/-- C7 (confirmed): the detector answers exactly by the priority match on
the canonical envelope markers (the V1 prologue as a prefix, then the V2
trailing call as a suffix, then either V3 trailing-call form); each
canonical marker string itself detects as its own epoch; and on a text
carrying none of the markers, detection yields `none` and `load` returns
`UnsupportedIndexVersion` with no partial result. -/
theorem c7_epoch_detection :
    (∀ s : String, Version.detect s = some .V1 ↔
      startsWithL s.toList v1Marker.toList = true) ∧
    (∀ s : String, Version.detect s = some .V2 ↔
      (startsWithL s.toList v1Marker.toList = false ∧
        endsWithL s.toList v2Marker.toList = true)) ∧
    (∀ s : String, Version.detect s = some .V3 ↔
      (startsWithL s.toList v1Marker.toList = false ∧
        endsWithL s.toList v2Marker.toList = false ∧
        (endsWithL s.toList v3MarkerWindow.toList = true ∨
          endsWithL (trimEndL s.toList) v3MarkerExports.toList = true))) ∧
    (∀ s : String, Version.detect s = none ↔
      (startsWithL s.toList v1Marker.toList = false ∧
        endsWithL s.toList v2Marker.toList = false ∧
        endsWithL s.toList v3MarkerWindow.toList = false ∧
        endsWithL (trimEndL s.toList) v3MarkerExports.toList = false)) ∧
    Version.detect v1Marker = some .V1 ∧
    Version.detect v2Marker = some .V2 ∧
    Version.detect v3MarkerWindow = some .V3 ∧
    Version.detect v3MarkerExports = some .V3 ∧
    (∀ s : String, Version.detect s = none →
      load s = some (.error .UnsupportedIndexVersion)) := by
  refine ⟨?_, ?_, ?_, ?_, by rfl, by rfl, by rfl, by rfl, ?_⟩
  · intro s
    cases h1 : startsWithL s.toList v1Marker.toList <;>
      cases h2 : endsWithL s.toList v2Marker.toList <;>
      cases h3 : endsWithL s.toList v3MarkerWindow.toList <;>
      cases h4 : endsWithL (trimEndL s.toList) v3MarkerExports.toList <;>
      (simp only [String.toList] at h1 h2 h3 h4; simp [Version.detect, h1, h2, h3, h4])
  · intro s
    cases h1 : startsWithL s.toList v1Marker.toList <;>
      cases h2 : endsWithL s.toList v2Marker.toList <;>
      cases h3 : endsWithL s.toList v3MarkerWindow.toList <;>
      cases h4 : endsWithL (trimEndL s.toList) v3MarkerExports.toList <;>
      (simp only [String.toList] at h1 h2 h3 h4; simp [Version.detect, h1, h2, h3, h4])
  · intro s
    cases h1 : startsWithL s.toList v1Marker.toList <;>
      cases h2 : endsWithL s.toList v2Marker.toList <;>
      cases h3 : endsWithL s.toList v3MarkerWindow.toList <;>
      cases h4 : endsWithL (trimEndL s.toList) v3MarkerExports.toList <;>
      (simp only [String.toList] at h1 h2 h3 h4; simp [Version.detect, h1, h2, h3, h4])
  · intro s
    cases h1 : startsWithL s.toList v1Marker.toList <;>
      cases h2 : endsWithL s.toList v2Marker.toList <;>
      cases h3 : endsWithL s.toList v3MarkerWindow.toList <;>
      cases h4 : endsWithL (trimEndL s.toList) v3MarkerExports.toList <;>
      (simp only [String.toList] at h1 h2 h3 h4; simp [Version.detect, h1, h2, h3, h4])
  · intro s h
    simp only [load, h]

/-- C7 witness: the load conjunct at the empty document, which carries no
marker. -/
theorem c7_epoch_detection_witness :
    load "" = some (.error .UnsupportedIndexVersion) :=
  c7_epoch_detection.2.2.2.2.2.2.2.2 "" rfl

/-- The dense encoding of a per-item path list: an empty string repeats the
previous path.  Modelled from the spec's description of the dense `q` form
(that form is what the generator emits and the visitor decodes). -/
def denseEnc : List String → String → List QVal
  | [], _ => []
  | p :: rest, prev => (if p = prev then QVal.str "" else QVal.str p) :: denseEnc rest p

/-- The sparse encoding of the same path list: `(position, path)` pairs at
exactly the positions where the path changes.  Modelled from the spec. -/
def sparseEnc : List String → Nat → String → List QVal
  | [], _, _ => []
  | p :: rest, pos, prev =>
    if p = prev then sparseEnc rest (pos + 1) prev
    else QVal.tup pos p :: sparseEnc rest (pos + 1) p

lemma dense_sparse_visit (paths : List String) :
    ∀ (prev : String) (pos pos2 : Nat) (m : List (Nat × String)),
      (∀ p ∈ paths, p ≠ "") →
      visitSeqQ (denseEnc paths prev) pos m =
        visitSeqQ (sparseEnc paths pos prev) pos2 m := by
  induction paths with
  | nil => intro prev pos pos2 m hne; rfl
  | cons p rest ih =>
    intro prev pos pos2 m hne
    have hp' : p ≠ "" := hne p (by simp)
    by_cases hp : p = prev
    · have hl : denseEnc (p :: rest) prev = QVal.str "" :: denseEnc rest p := by
        simp [denseEnc, hp]
      have hr : sparseEnc (p :: rest) pos prev = sparseEnc rest (pos + 1) p := by
        rw [← hp]
        simp [sparseEnc]
      rw [hl, hr]
      simp only [visitSeqQ, if_pos rfl]
      exact ih p (pos + 1) pos2 m (fun x hx => hne x (by simp [hx]))
    · have hl : denseEnc (p :: rest) prev = QVal.str p :: denseEnc rest p := by
        simp [denseEnc, hp]
      have hr : sparseEnc (p :: rest) pos prev =
          QVal.tup pos p :: sparseEnc rest (pos + 1) p := by
        simp [sparseEnc, hp]
      rw [hl, hr]
      simp only [visitSeqQ]
      rw [if_neg hp']
      exact ih p (pos + 1) (pos2 + 1) _ (fun x hx => hne x (by simp [hx]))

/-- The dense `q` form `["a", "", "b"]` as JSON. -/
def qFormDenseJson : Json := .arr [.str "a", .str "", .str "b"]

/-- The sparse `q` form `[(0,"a"), (2,"b")]` as JSON. -/
def qFormSparseJson : Json := .arr [.arr [.num 0, .str "a"], .arr [.num 2, .str "b"]]

/-- A 3-item package whose `q` column decodes from the dense form. -/
def qDenseRaw : RawCrateData :=
  { doc := "", t := [.Module, .Module, .Module], n := ["x", "y", "z"],
    q := (deQ qFormDenseJson).getD [], d := ["", "", ""], i := [0, 0, 0], p := [] }

/-- The same package with `q` decoded from the sparse form. -/
def qSparseRaw : RawCrateData :=
  { doc := "", t := [.Module, .Module, .Module], n := ["x", "y", "z"],
    q := (deQ qFormSparseJson).getD [], d := ["", "", ""], i := [0, 0, 0], p := [] }

/-- C8 (confirmed): the dense and the sparse `q` encodings of the same
(nonempty) path sequence visit to the same normalized `path_delta` map;
in particular the dense form `["a", "", "b"]` and the sparse form
`[(0,"a"), (2,"b")]` deserialize to the same map and the corresponding
3-item packages resolve to identical paths. -/
theorem c8_dense_sparse_equivalence :
    (∀ paths : List String, (∀ p ∈ paths, p ≠ "") →
      visitSeqQ (denseEnc paths "") 0 [] = visitSeqQ (sparseEnc paths 0 "") 0 []) ∧
    deQ qFormDenseJson = some [(0, "a"), (2, "b")] ∧
    deQ qFormSparseJson = some [(0, "a"), (2, "b")] ∧
    transformCrate qDenseRaw = transformCrate qSparseRaw ∧
    (transformCrate qDenseRaw).items.map (fun it => it.path) = ["a", "a", "b"] := by
  exact ⟨fun paths h => dense_sparse_visit paths "" 0 0 [] h, rfl, rfl, rfl, rfl⟩

/-- C8 witness: the general conjunct at the path sequence
`["a", "a", "b"]` (one repeat, one change). -/
theorem c8_dense_sparse_equivalence_witness :
    visitSeqQ (denseEnc ["a", "a", "b"] "") 0 [] =
      visitSeqQ (sparseEnc ["a", "a", "b"] 0 "") 0 [] :=
  c8_dense_sparse_equivalence.1 ["a", "a", "b"] (by decide)

/-! Helper lemmas for the V1 grammar parsers. -/

lemma tagP_append (t rest : List Char) : tagP t (t ++ rest) = .ok () rest := by
  simp only [tagP]
  rw [if_pos, List.drop_left]
  exact List.isPrefixOf_iff_prefix.mpr (List.prefix_append t rest)

lemma tagP_cons_self (c : Char) (rest : List Char) : tagP [c] (c :: rest) = .ok () rest :=
  tagP_append [c] rest

lemma takeWhile_digits_bracket (ds rest : List Char) (h : ∀ x ∈ ds, x.isDigit = true) :
    (ds ++ ']' :: rest).takeWhile Char.isDigit = ds := by
  induction ds with
  | nil => rfl
  | cons x ds ih =>
    have hx := h x (by simp)
    simp only [List.cons_append, List.takeWhile_cons, hx, if_true]
    rw [ih (fun y hy => h y (by simp [hy]))]

lemma decUintP_digits (ds rest : List Char) (h : ∀ x ∈ ds, x.isDigit = true)
    (hne : ds ≠ []) (hlt : digitsVal ds < 2 ^ 64) :
    decUintP (ds ++ ']' :: rest) = .ok (digitsVal ds) (']' :: rest) := by
  simp only [decUintP, takeWhile_digits_bracket ds rest h]
  rw [if_neg hne, if_pos hlt]
  rw [List.drop_left]

lemma referenceP_inBounds (r : List String) (ds rest : List Char) (s : String)
    (h : ∀ x ∈ ds, x.isDigit = true) (hne : ds ≠ []) (hlt : digitsVal ds < 2 ^ 64)
    (hs : r.get? (digitsVal ds) = some s) :
    referenceP r ("R[".toList ++ (ds ++ ']' :: rest)) = .ok (.Str s) rest := by
  simp only [referenceP, tagP_append, decUintP_digits ds rest h hne hlt, hs,
    tagP_cons_self]

lemma referenceP_outOfBounds (r : List String) (ds rest : List Char)
    (h : ∀ x ∈ ds, x.isDigit = true) (hne : ds ≠ []) (hlt : digitsVal ds < 2 ^ 64)
    (hout : r.length ≤ digitsVal ds) :
    referenceP r ("R[".toList ++ (ds ++ ']' :: rest)) = .err true := by
  simp only [referenceP, tagP_append, decUintP_digits ds rest h hne hlt,
    List.get?_eq_none.mpr hout]

/-- C9 (confirmed): in the V1 grammar the sentinels `N`, `E`, `T`, `U`
decode to null, `""`, `"t"` and `"u"`; `R[n]` dispatches to the reference
parser, which yields the n-th entry of the reference table when `n` is in
bounds and a (cut) decode error — never a default — when it is not. -/
theorem c9_sentinels_references :
    (∀ (r : List String) (fuel : Nat) (rest : List Char),
      jsonValueP r (fuel + 1) ('N' :: rest) = .ok .Null rest ∧
      jsonValueP r (fuel + 1) ('E' :: rest) = .ok (.Str "") rest ∧
      jsonValueP r (fuel + 1) ('T' :: rest) = .ok (.Str "t") rest ∧
      jsonValueP r (fuel + 1) ('U' :: rest) = .ok (.Str "u") rest ∧
      jsonValueP r (fuel + 1) ('R' :: rest) = referenceP r ('R' :: rest)) ∧
    (∀ (r : List String) (ds rest : List Char) (s : String),
      (∀ x ∈ ds, x.isDigit = true) → ds ≠ [] → digitsVal ds < 2 ^ 64 →
      r.get? (digitsVal ds) = some s →
      referenceP r ("R[".toList ++ (ds ++ ']' :: rest)) = .ok (.Str s) rest) ∧
    (∀ (r : List String) (ds rest : List Char),
      (∀ x ∈ ds, x.isDigit = true) → ds ≠ [] → digitsVal ds < 2 ^ 64 →
      r.length ≤ digitsVal ds →
      referenceP r ("R[".toList ++ (ds ++ ']' :: rest)) = .err true) := by
  refine ⟨?_, referenceP_inBounds, referenceP_outOfBounds⟩
  intro r fuel rest
  refine ⟨?_, ?_, ?_, ?_, ?_⟩ <;> simp [jsonValueP, tagP, List.isPrefixOf]

/-- C9 witness: sentinels at the empty remainder, `R[1]` against a
two-entry table (in bounds) and against a one-entry table (error). -/
theorem c9_sentinels_references_witness :
    jsonValueP ["x", "y"] 1 ('N' :: []) = .ok .Null [] ∧
    referenceP ["x", "y"] ("R[".toList ++ (['1'] ++ ']' :: [])) = .ok (.Str "y") [] ∧
    referenceP ["x"] ("R[".toList ++ (['1'] ++ ']' :: [])) = .err true :=
  ⟨(c9_sentinels_references.1 ["x", "y"] 0 []).1,
    c9_sentinels_references.2.1 ["x", "y"] ['1'] [] "y" (by decide) (by decide)
      (by decide) (by decide),
    c9_sentinels_references.2.2 ["x"] ['1'] [] (by decide) (by decide) (by decide)
      (by decide)⟩

/-- C2 counterexample: the invalid unicode escape `"\uZZZZ"`, whose four
following characters are not hex digits, does not decode to U+FFFD — the
whole parse fails (`take_while(4, is_hex_digit)` backtracks and the string
parser then cuts on the missing closing quote). -/
theorem c2_counterexample : v1Parse [] ("\"\\uZZZZ\"".toList) = none := rfl

/-- C2 (amended, corrected): an escape `\uXXXX` whose four following chars
are hex digits decodes via `char::from_u32`, falling back to U+FFFD exactly
when the code point is not a valid scalar (e.g. the surrogate `\uD800`);
`"\u0041"` decodes to `"A"`; an escape whose four following characters are
not hex digits (such as `"\uZZZZ"`) fails the parse instead of producing
U+FFFD. -/
theorem c2_unicode_escape :
    (∀ (cs rest : List Char), cs.length = 4 → (∀ c ∈ cs, isHexDigitCh c = true) →
      characterP ('\\' :: 'u' :: (cs ++ rest)) =
        .ok ((charFromU32 (hexVal cs)).getD '\uFFFD') rest) ∧
    v1Parse [] ("\"\\u0041\"".toList) = some (.Str "A") ∧
    v1Parse [] ("\"\\uD800\"".toList) = some (.Str "\uFFFD") ∧
    v1Parse [] ("\"\\uZZZZ\"".toList) = none := by
  refine ⟨?_, rfl, rfl, rfl⟩
  intro cs rest h4 hhex
  have ht : (cs ++ rest).take 4 = cs := by
    rw [← h4]; exact List.take_left cs rest
  have hd : (cs ++ rest).drop 4 = rest := by
    rw [← h4]; exact List.drop_left cs rest
  show unicodeEscapeP (cs ++ rest) = _
  simp only [unicodeEscapeP, ht, hd]
  rw [if_pos]
  simp only [List.all_eq_true, decide_eq_true_eq, Bool.and_eq_true]
  exact ⟨by simp [h4], hhex⟩

/-- C2 witness: the general conjunct at the escape `\u0041`. -/
theorem c2_unicode_escape_witness :
    characterP ('\\' :: 'u' :: ("0041".toList ++ [])) =
      .ok ((charFromU32 (hexVal "0041".toList)).getD '\uFFFD') [] :=
  c2_unicode_escape.1 ("0041".toList) [] rfl (by decide)

/-- A decodable V1 package line. -/
def v1GoodLine : String :=
  "searchIndex[\"good\"]=\x7b\"doc\":E,\"i\":[[5,\"foo\",T,R[0],0,N]],\"p\":[]\x7d;"

/-- A V1 package line whose grammar value is irrecoverably malformed. -/
def v1BadLine : String :=
  "searchIndex[\"bad\"]=\x7b\"doc\":E,\"i\":[[5,;"

/-- A V1 document containing both packages. -/
def v1DocBoth : String := "var R=[\"desc\"];\n" ++ v1GoodLine ++ "\n" ++ v1BadLine

/-- The same document with only the good package. -/
def v1DocGood : String := "var R=[\"desc\"];\n" ++ v1GoodLine

/-- The raw data the good package decodes to. -/
def v1GoodCrateData : RawCrateData :=
  { doc := "", t := [.Function], n := ["foo"], q := [(0, "t")],
    d := ["desc"], i := [0], p := [] }

/-- The `(name, value)` entry of the malformed package. -/
def v1BadEntry : List Char × List Char :=
  ("bad".toList, "\x7b\"doc\":E,\"i\":[[5,".toList)

lemma exceptMapMLoop_error {ε α β : Type} (f : α → Except ε β) (x : α) (xs : List α)
    (acc : List β) (e : ε) (h : f x = .error e) :
    List.mapM.loop f (x :: xs) acc = .error e := by
  unfold List.mapM.loop
  rw [h]
  rfl

lemma exceptMapMLoop_ok {ε α β : Type} (f : α → Except ε β) (x : α) (xs : List α)
    (acc : List β) (b : β) (h : f x = .ok b) :
    List.mapM.loop f (x :: xs) acc = List.mapM.loop f xs (b :: acc) := by
  unfold List.mapM.loop
  rw [h]
  cases xs <;> rfl

lemma mapM_loop_decodeV1Entry_error (r : List String) :
    ∀ (entries : List (List Char × List Char)) (acc : List (String × RawCrateData)),
      (∃ e ∈ entries, ∃ err, decodeV1Entry r e = .error err) →
      ∃ err2, List.mapM.loop (decodeV1Entry r) entries acc = .error err2 := by
  intro entries
  induction entries with
  | nil =>
    rintro acc ⟨e, he, _⟩
    cases he
  | cons x rest ih =>
    rintro acc ⟨e, he, err, herr⟩
    cases hx : decodeV1Entry r x with
    | error e2 => exact ⟨e2, exceptMapMLoop_error _ _ _ _ _ hx⟩
    | ok v =>
      have he' : e ∈ rest := by
        cases he with
        | head => rw [herr] at hx; cases hx
        | tail _ hm => exact hm
      obtain ⟨err2, h2⟩ := ih (v :: acc) ⟨e, he', err, herr⟩
      exact ⟨err2, by rw [exceptMapMLoop_ok _ _ _ _ _ hx]; exact h2⟩

lemma mapM_decodeV1Entry_error (r : List String)
    (entries : List (List Char × List Char))
    (h : ∃ e ∈ entries, ∃ err, decodeV1Entry r e = .error err) :
    ∃ err2, entries.mapM (decodeV1Entry r) =
      (.error err2 : Except IndexV1Error (List (String × RawCrateData))) :=
  mapM_loop_decodeV1Entry_error r entries [] h

/-- C3 counterexample: in the document `v1DocBoth` the `bad` package's
value is irrecoverably malformed; the sibling `good` package decodes on its
own, yet decoding the whole document returns only an error — the siblings'
results are not returned to the caller (`collect::<Result>` aborts). -/
theorem c3_counterexample :
    loadRawV1 v1DocBoth = .error .InvalidIndexJavaScript ∧
    loadRawV1 v1DocGood = .ok ⟨[("good", v1GoodCrateData)]⟩ :=
  ⟨rfl, rfl⟩

/-- C3 (amended, corrected): when any package's value fails to decode, the
whole-document decode returns the first error and no package results; the
sibling package is only recovered by decoding a document without the
malformed package. -/
theorem c3_package_failure_aborts :
    (∀ (r : List String) (entries : List (List Char × List Char)),
      (∃ e ∈ entries, ∃ err, decodeV1Entry r e = .error err) →
      ∃ err2, entries.mapM (decodeV1Entry r) =
        (.error err2 : Except IndexV1Error (List (String × RawCrateData)))) ∧
    loadRawV1 v1DocBoth = .error .InvalidIndexJavaScript ∧
    loadRawV1 v1DocGood = .ok ⟨[("good", v1GoodCrateData)]⟩ :=
  ⟨mapM_decodeV1Entry_error, rfl, rfl⟩

/-- C3 witness: the abort conjunct applied to the entries of `v1DocBoth`,
whose `bad` entry fails with `InvalidIndexJavaScript`. -/
theorem c3_package_failure_aborts_witness :
    ∃ err2, (v1Entries v1DocBoth).mapM (decodeV1Entry ["desc"]) =
      (.error err2 : Except IndexV1Error (List (String × RawCrateData))) :=
  c3_package_failure_aborts.1 ["desc"] (v1Entries v1DocBoth)
    ⟨v1BadEntry, by decide, .InvalidIndexJavaScript, rfl⟩

end Docsearch
